import Mathlib

/-!
# Verification of the phantom-tester orchestration core

Shallow embedding of `src/lib/phantom-tester.js` (a PhantomJS test-suite
orchestrator) and proofs of its specified properties.

Modelling conventions:
* JS strings are Lean `String`s; `msg.indexOf(sub) > -1` becomes substring
  containment over the character list (an empty needle matches, as in JS).
* `undefined`-able fields become `Option`; JS falsy-string checks
  (`t.file || t.sourceURL`) treat the empty string as falsy.
* The callback-chained suite schedule is embedded as sequential recursion; a
  `thrown` error aborts the run through an `Except`-style result.
* Observable behaviour (console printing, page construction, injections,
  `phantom.exit`) is recorded in explicit output lists / event traces.
-/

namespace PhantomTester

/-! ## String helpers (JS `indexOf`/`slice` semantics) -/

/-- `charsPrefix sub l` : does `l` start with `sub`? -/
def charsPrefix : List Char → List Char → Bool
  | [], _ => true
  | _ :: _, [] => false
  | a :: as, b :: bs => a == b && charsPrefix as bs

/-- `charsContain sub l` : does `sub` occur contiguously inside `l`?
(JS `l.indexOf(sub) > -1`; an empty `sub` occurs in everything.) -/
def charsContain (sub : List Char) : List Char → Bool
  | [] => sub.isEmpty
  | c :: cs => charsPrefix sub (c :: cs) || charsContain sub cs

/-- JS `s.indexOf(sub) >= 0`. -/
def containsSubstr (s sub : String) : Bool :=
  charsContain sub.data s.data

/-- JS `s.slice(n)` for a nonnegative `n`. -/
def jsSlice (s : String) (n : Nat) : String :=
  String.mk (s.data.drop n)

/-- JS `a || b` where `a` is a possibly-`undefined` string (empty is falsy). -/
def jsOrStr (a : Option String) (b : String) : String :=
  match a with
  | some s => if s.isEmpty then b else s
  | none => b

/-! ## Command-line configuration (`parseCommandLineCfg`, lines 17–44) -/

structure Config where
  color : Bool
  debug : Bool
  verbose : Bool
  xunitName : String
deriving DecidableEq

/-- Regex search `/\-\-xunitName=(.+)/` over a char list: find the first
position where `--xunitName=` matches and is followed by at least one
non-newline character; capture greedily up to the end of the line. -/
def xunitCapture : List Char → Option (List Char)
  | [] => none
  | c :: cs =>
    if charsPrefix "--xunitName=".data (c :: cs) then
      let rest := (c :: cs).drop "--xunitName=".data.length
      let captured := rest.takeWhile (fun ch => ch ≠ '\n')
      if captured.isEmpty then xunitCapture cs else some captured
    else xunitCapture cs

/-- JS `arg.match(/\-\-xunitName=(.+)/)`, returning the captured group. -/
def matchXunitName (arg : String) : Option String :=
  (xunitCapture arg.data).map String.mk

/-- `parseCommandLineCfg` (lines 17–44): flag presence by `indexOf > -1`;
the `forEach` over args keeps the last `--xunitName=` match; defaults the
xunit variable name to `"assert"`. -/
def parseCommandLineCfg (aCmdArgs : List String) : Config :=
  let bGlobalColor := aCmdArgs.contains "--color"
  let bGlobalDebug := aCmdArgs.contains "--debug"
  let bGlobalVerbose := aCmdArgs.contains "--verbose"
  let sxunitVarName := aCmdArgs.foldl
    (fun acc arg =>
      match matchXunitName arg with
      | some m => some m
      | none => acc) none
  { color := bGlobalColor
    debug := bGlobalDebug
    verbose := bGlobalVerbose
    xunitName := sxunitVarName.getD "assert" }

/-! ## Per-suite configuration (`openAndTest`, lines 100–112) -/

/-- The `phantom` sub-object of a suite's user configuration; each field may
be `undefined`. -/
structure PhantomConf where
  debug : Option Bool
  verbose : Option Bool
  ignoredErrors : Option (List String)
deriving DecidableEq

/-- A suite's user configuration (`this._config`); `phantom` may be absent
(`userConf.phantom = userConf.phantom || {}`). -/
structure UserConf where
  phantom : Option PhantomConf
deriving DecidableEq

/-- `userConf.phantom || {}`. -/
def effectivePhantomConf (userConf : UserConf) : PhantomConf :=
  userConf.phantom.getD { debug := none, verbose := none, ignoredErrors := none }

/-- Line 102: `(userConf.phantom.debug !== undefined) ? userConf.phantom.debug
: CFG.debug`. -/
def effectiveDebug (userConf : UserConf) (cfg : Config) : Bool :=
  match (effectivePhantomConf userConf).debug with
  | some b => b
  | none => cfg.debug

/-- Line 103: same selection for the verbose flag. -/
def effectiveVerbose (userConf : UserConf) (cfg : Config) : Bool :=
  match (effectivePhantomConf userConf).verbose with
  | some b => b
  | none => cfg.verbose

/-- Line 112: `userConf.phantom.ignoredErrors || null` (an empty array is
truthy in JS, so `some []` stays as it is). -/
def effectiveIgnoredErrors (userConf : UserConf) : Option (List String) :=
  (effectivePhantomConf userConf).ignoredErrors

/-! ## Error classifier (`page.onError`, lines 120–149) -/

/-- One frame of the error trace passed to `page.onError`. JS fields `file`
and `function` may be `undefined`. -/
structure TraceFrame where
  file : Option String
  sourceURL : String
  line : Nat
  fn : Option String
deriving DecidableEq

/-- Line 135: `' -> ' + (t.file || t.sourceURL) + ': ' + t.line +
(t.function ? ' (in function ' + t.function + ')' : '')`. -/
def renderTraceLine (t : TraceFrame) : String :=
  " -> " ++ jsOrStr t.file t.sourceURL ++ ": " ++ toString t.line ++
    (match t.fn with
     | some f => if f.isEmpty then "" else " (in function " ++ f ++ ")"
     | none => "")

/-- Line 121: the reserved assertion-failure marker. -/
def magicString : String := "ASSERT_FAIL"

/-- `page.onError` (lines 120–149). Returns the list of console print calls
it makes, in order: the debug-mode `console.error(msgStack.join('\n'))`
(only when debug is on, the message is not an assert failure, and no
ignore-list entry matches), then the assert-failure
`console.error(msg.slice(7))` (whenever the marker occurs in the message,
unconditionally otherwise). -/
def onError (bDebug : Bool) (ignoredErrors : Option (List String))
    (msg : String) (trace : List TraceFrame) : List String :=
  let isAssertFail := containsSubstr msg magicString
  let debugOut :=
    if bDebug && !isAssertFail then
      let ignore :=
        match ignoredErrors with
        | some l => l.any (fun ignoredMsg => containsSubstr msg ignoredMsg)
        | none => false
      if !ignore then
        let msgStack := ("PHANTOM ERROR: " ++ msg) ::
          (if trace.isEmpty then [] else trace.map renderTraceLine ++ [""])
        [String.intercalate "\n" msgStack]
      else []
    else []
  let assertOut := if isAssertFail then [jsSlice msg 7] else []
  debugOut ++ assertOut

/-! ## Test queue / runner (`getTestRunner`, lines 54–73) -/

/-- One declared test: a name plus its body, abstracted by the one property
the runner observes — whether evaluating the body in the page throws. -/
structure TestDecl where
  testName : String
  throwsError : Bool
deriving DecidableEq

/-- Modelled from the spec: `client.wrapWithTryCatch` lives in
`lib/client.js`, which is not part of the sources here. Per the spec
(§4.3), the runner evaluates each body "with a failure barrier such that a
thrown error inside `body` is caught, reported as a local failure … a
non-throwing run is reported with an OK marker": the wrapped evaluation
returns `ok` exactly when the body did not throw. -/
def wrapWithTryCatchResult (bodyThrows : Bool) : Bool :=
  !bodyThrows

/-- Line 69: `(ok ? " [ OK ] " : " [FAIL] ") + test.testName` (color
codes elided). -/
def testResultLine (ok : Bool) (testName : String) : String :=
  (if ok then " [ OK ] " else " [FAIL] ") ++ testName

/-- Lines 56–61: the returned `testRunner` function pushes a declaration
onto `pendingTests`. -/
def testRunnerPush (pendingTests : List TestDecl) (t : TestDecl) : List TestDecl :=
  pendingTests ++ [t]

/-- Lines 63–71: `testRunner.start` drains the queue front-first
(`shift`), evaluating each body behind the try/catch wrapper and printing
one OK/FAIL line per test. Returns the console lines in order. -/
def testRunnerStart : List TestDecl → List String
  | [] => []
  | test :: rest =>
    testResultLine (wrapWithTryCatchResult test.throwsError) test.testName
      :: testRunnerStart rest

/-- `feedRunnerWithTests(testRunner)`: the gathering function declares its
tests in order, each via a `testRunnerPush` call on the queue. -/
def gatherIntoQueue (decls : List TestDecl) : List TestDecl :=
  decls.foldl testRunnerPush []

/-! ## Result aggregator (`onTestSuiteFinished`, lines 208–222) -/

/-- The assertion tally read back from the page
(`window[xunitVarName]._goodAsserts` / `._badAsserts`). -/
structure AssertTally where
  goodAsserts : Nat
  badAsserts : Nat
deriving DecidableEq

/-- `onTestSuiteFinished` (lines 208–222): reads the tally, prints the
one-line suite summary, and passes `hasFailures ? 99 : 0` to `done`.
Returns (printed summary, exit code handed to the continuation). -/
def onTestSuiteFinished (asserts : AssertTally) (suiteId suiteCount : Nat) :
    String × Nat :=
  let hasFailures : Bool := decide (asserts.badAsserts > 0)
  let msg := "\n  Test suite " ++ toString (suiteId + 1) ++ "/" ++
    toString suiteCount ++ " finished: " ++
    (toString asserts.goodAsserts ++ " asserts OK")
  let msg := if hasFailures then
      msg ++ "; " ++ (toString asserts.badAsserts ++ " asserts KO")
    else msg
  (msg ++ "\n", if hasFailures then 99 else 0)

/-- The per-suite exit code produced by `onTestSuiteFinished`. -/
def suiteCode (t : AssertTally) : Nat :=
  if t.badAsserts > 0 then 99 else 0

/-! ## Page session and orchestrator (`openAndTest`, `start`, `_startSuite`,
`_getSuiteDoneCb`, lines 98–206 and 258–326)

The PhantomJS driver is abstracted by `Env`: the configured injection path
lists (`this._polyfillPaths`, `this._userScriptPaths`, possibly never set)
and the driver's `page.injectJs` success function. A suite's in-page work
is abstracted by the `AssertTally` it leaves behind. Every observable step
of a run is recorded as an event. -/

structure Env where
  polyfillPaths : Option (List String)
  userScriptPaths : Option (List String)
  injectJs : String → Bool

/-- A thrown `Error` that aborts the run: either a missing-configuration
error or a failed injection. -/
inductive FatalError where
  | configError (msg : String)
  | injectionError (msg : String)
deriving DecidableEq

/-- Observable events of a run, in order of occurrence. -/
inductive Ev where
  | startSuite (n : Nat)
  | createPage (n : Nat)
  | injectPolyfill (path : String)
  | injectUserScript (path : String)
  | injectXUnit
  | gatherTests
  | runTests
  | readTally
  | pushExitCode (code : Nat)
  | exitProcess (code : Nat)
deriving DecidableEq

/-- An injection loop (lines 159–166 for polyfills, 178–185 for user
scripts): inject each path in order, throwing `errMsg` at the first
failure. Returns the successful-injection events and the thrown error, if
any. -/
def injectAll (mk : String → Ev) (errMsg : String) (inject : String → Bool) :
    List String → List Ev × Option FatalError
  | [] => ([], none)
  | p :: ps =>
    if inject p then
      let r := injectAll mk errMsg inject ps
      (mk p :: r.1, r.2)
    else ([], some (.injectionError errMsg))

/-- `openAndTest` (lines 98–206) for one suite: create the page; the
`onInitialized` hook injects the polyfills (throwing if the list was never
set or an injection fails); after the page opens, inject the user scripts
(same policy), inject the xunit library, gather and run the tests, and
read the tally via `onTestSuiteFinished`, whose code goes to `done`. -/
def openAndTestRun (env : Env) (tally : AssertTally) (suiteId suiteCount : Nat) :
    List Ev × Except FatalError Nat :=
  let pageEv := [Ev.createPage suiteId]
  match env.polyfillPaths with
  | none => (pageEv, .error (.configError "phantom-tester: _polyfillPaths is not defined"))
  | some pfPaths =>
    let pf := injectAll Ev.injectPolyfill "Can't inject polyfill into the page..."
      env.injectJs pfPaths
    match pf.2 with
    | some e => (pageEv ++ pf.1, .error e)
    | none =>
      match env.userScriptPaths with
      | none => (pageEv ++ pf.1, .error (.configError "phantom-tester: _userScriptPaths is not defined"))
      | some usPaths =>
        let us := injectAll Ev.injectUserScript "Can't inject userscript into the page..."
          env.injectJs usPaths
        match us.2 with
        | some e => (pageEv ++ pf.1 ++ us.1, .error e)
        | none =>
          let rest := [Ev.injectXUnit, Ev.gatherTests, Ev.runTests, Ev.readTally]
          let code := (onTestSuiteFinished tally suiteId suiteCount).2
          (pageEv ++ pf.1 ++ us.1 ++ rest, .ok code)

/-- The suite loop: `_startSuite n` (lines 285–295) runs suite `n` (the
head of the still-to-run tail of the registry) through `openAndTest`,
handing it the continuation built by `_getSuiteDoneCb n` (lines 304–326),
which pushes the suite's exit code onto `_exitCodes` and then either
starts suite `n+1` (when `n+1 < nSuites`) or exits PhantomJS with 99 when
any recorded code is 99 (`_exitCodes.indexOf(99) > -1`) and 0 otherwise.
Returns (event trace, run result, final `_exitCodes`); a thrown fatal
error aborts the run at that point. Invariant at every call reachable
from `start`: the last argument is `suites.drop n`. -/
def runLoop (env : Env) (suites : List AssertTally) (n : Nat)
    (exitCodes : List Nat) :
    List AssertTally → List Ev × Except FatalError Nat × List Nat
  | [] => ([], .ok 0, exitCodes)
  | t :: rest =>
    let r := openAndTestRun env t n suites.length
    match r.2 with
    | .error e => (Ev.startSuite n :: r.1, .error e, exitCodes)
    | .ok exitCode =>
      let exitCodes2 := exitCodes ++ [exitCode]
      if n + 1 < suites.length then
        let k := runLoop env suites (n + 1) exitCodes2 rest
        (Ev.startSuite n :: r.1 ++ [Ev.pushExitCode exitCode] ++ k.1,
          k.2.1, k.2.2)
      else
        let hasError := exitCodes2.contains 99
        let finalCode := if hasError then 99 else 0
        (Ev.startSuite n :: r.1 ++ [Ev.pushExitCode exitCode, Ev.exitProcess finalCode],
          .ok finalCode, exitCodes2)

/-- The mutable module state the claims observe: the suite registry
(`this._registeredSuites`, each suite abstracted by its tally) and the
recorded per-suite exit codes (`this._exitCodes`). -/
structure ModuleState where
  registeredSuites : List AssertTally
  exitCodes : List Nat
deriving DecidableEq

/-- `registerSuite` (lines 258–260): pushes the descriptor onto the
registry. The source performs no started-state check of any kind. -/
def registerSuite (st : ModuleState) (t : AssertTally) : ModuleState :=
  { st with registeredSuites := st.registeredSuites ++ [t] }

/-- `start` (lines 265–273): runs suite 0 when the registry is non-empty,
else prints "No suites registered!" and exits with 98. -/
def start (env : Env) (st : ModuleState) :
    List Ev × Except FatalError Nat × ModuleState :=
  if st.registeredSuites.length > 0 then
    let r := runLoop env st.registeredSuites 0 st.exitCodes st.registeredSuites
    (r.1, r.2.1, { st with exitCodes := r.2.2 })
  else
    ([Ev.exitProcess 98], .ok 98, st)

/-! ## Auxiliary definitions used by the theorem statements -/

/-- Remove the first occurrence of `sub` from a char list. -/
def charsRemoveFirst (sub : List Char) : List Char → List Char
  | [] => []
  | c :: cs =>
    if charsPrefix sub (c :: cs) then (c :: cs).drop sub.length
    else c :: charsRemoveFirst sub cs

/-- The specification's reading of the assertion-failure output line: the
error message with the reserved marker text stripped. Stated from the
spec's words, for comparison against what `onError` actually prints. -/
def stripMarkerText (msg : String) : String :=
  String.mk (charsRemoveFirst magicString.data msg.data)

/-- Events of the navigation-dependent phase of a suite: user-script
injection, assertion-library injection, test gathering, test execution and
the tally read. -/
def navDependent : Ev → Bool
  | .injectUserScript _ => true
  | .injectXUnit => true
  | .gatherTests => true
  | .runTests => true
  | .readTally => true
  | _ => false

/-- Events of the phase that follows user-script injection:
assertion-library injection, test gathering, test execution, tally read. -/
def postUserScriptPhase : Ev → Bool
  | .injectXUnit => true
  | .gatherTests => true
  | .runTests => true
  | .readTally => true
  | _ => false

/-- The expected event trace of a fault-free run, starting at suite `n`:
one block per suite — start, page creation, the polyfill injections in
configured order, the user-script injections in configured order, the
xunit injection, gathering, execution, the tally read, and the recording
of the suite's exit code — followed by the next suite's block. -/
def tracesFrom (pf us : List String) : Nat → List AssertTally → List Ev
  | _, [] => []
  | n, t :: ts =>
    (Ev.startSuite n :: Ev.createPage n ::
      (pf.map Ev.injectPolyfill ++ us.map Ev.injectUserScript ++
        [Ev.injectXUnit, Ev.gatherTests, Ev.runTests, Ev.readTally,
          Ev.pushExitCode (suiteCode t)])) ++
      tracesFrom pf us (n + 1) ts

/-! ## Helper lemmas -/

theorem injectAll_ok (mk : String → Ev) (errMsg : String)
    (inject : String → Bool) (ps : List String)
    (h : ∀ p ∈ ps, inject p = true) :
    injectAll mk errMsg inject ps = (ps.map mk, none) := by
  induction ps with
  | nil => rfl
  | cons p ps ih =>
    have hp : inject p = true := h p (by simp)
    simp only [injectAll, hp, if_true, List.map]
    rw [ih fun q hq => h q (by simp [hq])]

theorem injectAll_fail_snd (mk : String → Ev) (errMsg : String)
    (inject : String → Bool) (ps : List String)
    (h : ∃ p ∈ ps, inject p = false) :
    (injectAll mk errMsg inject ps).2 = some (.injectionError errMsg) := by
  induction ps with
  | nil => simp at h
  | cons p ps ih =>
    cases hp : inject p with
    | false => simp [injectAll, hp]
    | true =>
      simp only [injectAll, hp, if_true]
      rcases h with ⟨q, hq, hqf⟩
      rcases List.mem_cons.mp hq with rfl | hq'
      · rw [hp] at hqf; cases hqf
      · exact ih ⟨q, hq', hqf⟩

theorem injectAll_fst_shape (mk : String → Ev) (errMsg : String)
    (inject : String → Bool) (ps : List String) :
    ∀ ev ∈ (injectAll mk errMsg inject ps).1, ∃ p, ev = mk p := by
  induction ps with
  | nil => simp [injectAll]
  | cons p ps ih =>
    cases hp : inject p with
    | false => simp [injectAll, hp]
    | true =>
      simp only [injectAll, hp, if_true]
      intro ev hev
      rcases List.mem_cons.mp hev with rfl | hev'
      · exact ⟨p, rfl⟩
      · exact ih ev hev'

theorem onTestSuiteFinished_snd (t : AssertTally) (suiteId suiteCount : Nat) :
    (onTestSuiteFinished t suiteId suiteCount).2 = suiteCode t := by
  unfold onTestSuiteFinished suiteCode
  by_cases h : t.badAsserts > 0 <;> simp [h]

theorem openAndTestRun_ok (inject : String → Bool) (pf us : List String)
    (hpf : ∀ p ∈ pf, inject p = true) (hus : ∀ p ∈ us, inject p = true)
    (t : AssertTally) (suiteId suiteCount : Nat) :
    openAndTestRun ⟨some pf, some us, inject⟩ t suiteId suiteCount =
      (Ev.createPage suiteId ::
        (pf.map Ev.injectPolyfill ++ us.map Ev.injectUserScript ++
          [Ev.injectXUnit, Ev.gatherTests, Ev.runTests, Ev.readTally]),
        .ok (suiteCode t)) := by
  simp [openAndTestRun, injectAll_ok _ _ _ _ hpf, injectAll_ok _ _ _ _ hus,
    onTestSuiteFinished_snd]

theorem runLoop_cons (env : Env) (suites : List AssertTally) (n : Nat)
    (exitCodes : List Nat) (t : AssertTally) (rest : List AssertTally) :
    runLoop env suites n exitCodes (t :: rest) =
      (let r := openAndTestRun env t n suites.length
       match r.2 with
       | .error e => (Ev.startSuite n :: r.1, .error e, exitCodes)
       | .ok exitCode =>
         let exitCodes2 := exitCodes ++ [exitCode]
         if n + 1 < suites.length then
           let k := runLoop env suites (n + 1) exitCodes2 rest
           (Ev.startSuite n :: r.1 ++ [Ev.pushExitCode exitCode] ++ k.1,
             k.2.1, k.2.2)
         else
           let hasError := exitCodes2.contains 99
           let finalCode := if hasError then 99 else 0
           (Ev.startSuite n :: r.1 ++
               [Ev.pushExitCode exitCode, Ev.exitProcess finalCode],
             .ok finalCode, exitCodes2)) := rfl

theorem runLoop_ok (inject : String → Bool) (pf us : List String)
    (hpf : ∀ p ∈ pf, inject p = true) (hus : ∀ p ∈ us, inject p = true)
    (suites : List AssertTally) :
    ∀ (rest : List AssertTally) (n : Nat) (acc : List Nat),
      rest ≠ [] → suites.length = n + rest.length →
      runLoop ⟨some pf, some us, inject⟩ suites n acc rest =
        (tracesFrom pf us n rest ++
          [Ev.exitProcess (if (acc ++ rest.map suiteCode).contains 99 then 99 else 0)],
          .ok (if (acc ++ rest.map suiteCode).contains 99 then 99 else 0),
          acc ++ rest.map suiteCode) := by
  intro rest
  induction rest with
  | nil => intro n acc hne _; cases hne rfl
  | cons t ts ih =>
    intro n acc _ hlen
    cases ts with
    | nil =>
      have hlt : ¬ n + 1 < suites.length := by
        simp at hlen; omega
      rw [runLoop_cons, openAndTestRun_ok inject pf us hpf hus t n suites.length]
      dsimp only
      rw [if_neg hlt]
      simp [tracesFrom]
    | cons t' ts' =>
      have hlt : n + 1 < suites.length := by
        simp at hlen; omega
      have hrec := ih (n + 1) (acc ++ [suiteCode t]) (by simp)
        (by simp at hlen ⊢; omega)
      rw [runLoop_cons, openAndTestRun_ok inject pf us hpf hus t n suites.length]
      dsimp only
      rw [if_pos hlt, hrec]
      simp [tracesFrom]

theorem openAndTestRun_pf_fail (inject : String → Bool) (pf : List String)
    (usOpt : Option (List String)) (h : ∃ p ∈ pf, inject p = false)
    (t : AssertTally) (i c : Nat) :
    openAndTestRun ⟨some pf, usOpt, inject⟩ t i c =
      ([Ev.createPage i] ++
        (injectAll Ev.injectPolyfill "Can't inject polyfill into the page..."
          inject pf).1,
        .error (.injectionError "Can't inject polyfill into the page...")) := by
  have h2 := injectAll_fail_snd Ev.injectPolyfill
    "Can't inject polyfill into the page..." inject pf h
  unfold openAndTestRun
  dsimp only
  rw [h2]

theorem openAndTestRun_us_fail (inject : String → Bool) (pf us : List String)
    (hpf : ∀ p ∈ pf, inject p = true) (hus : ∃ p ∈ us, inject p = false)
    (t : AssertTally) (i c : Nat) :
    openAndTestRun ⟨some pf, some us, inject⟩ t i c =
      ([Ev.createPage i] ++ pf.map Ev.injectPolyfill ++
        (injectAll Ev.injectUserScript "Can't inject userscript into the page..."
          inject us).1,
        .error (.injectionError "Can't inject userscript into the page...")) := by
  have h1 := injectAll_ok Ev.injectPolyfill
    "Can't inject polyfill into the page..." inject pf hpf
  have h2 := injectAll_fail_snd Ev.injectUserScript
    "Can't inject userscript into the page..." inject us hus
  unfold openAndTestRun
  dsimp only
  rw [h1]
  dsimp only
  rw [h2]

/-! ## The claims -/

/-- **C1**: on suite finalization, `onTestSuiteFinished` passes the FAIL
code 99 to the `done` callback iff the tally's bad-assert count read from
the page is positive, and passes SUCCESS (0) otherwise, for every
(goodCount, badCount) pair — in particular (0, 0) yields 0. -/
theorem onTestSuiteFinished_exit_iff (asserts : AssertTally)
    (suiteId suiteCount : Nat) :
    ((onTestSuiteFinished asserts suiteId suiteCount).2 = 99 ↔
      0 < asserts.badAsserts) ∧
    ((onTestSuiteFinished asserts suiteId suiteCount).2 = 0 ↔
      asserts.badAsserts = 0) := by
  unfold onTestSuiteFinished
  by_cases h : asserts.badAsserts > 0 <;> simp [h] <;> omega

/-- **C2**: for every run with at least one registered suite (and
fault-free, configured injections), the recorded per-suite exit codes are
exactly each suite's `onTestSuiteFinished` code, and the final process
status is 99 iff some recorded exit code is 99, and 0 iff none is. -/
theorem start_global_exit_iff (inject : String → Bool) (pf us : List String)
    (hpf : ∀ p ∈ pf, inject p = true) (hus : ∀ p ∈ us, inject p = true)
    (suites : List AssertTally) (hne : suites ≠ []) :
    ((start ⟨some pf, some us, inject⟩ ⟨suites, []⟩).2.2.exitCodes =
      suites.map suiteCode) ∧
    ((start ⟨some pf, some us, inject⟩ ⟨suites, []⟩).2.1 = .ok 99 ↔
      99 ∈ (start ⟨some pf, some us, inject⟩ ⟨suites, []⟩).2.2.exitCodes) ∧
    ((start ⟨some pf, some us, inject⟩ ⟨suites, []⟩).2.1 = .ok 0 ↔
      99 ∉ (start ⟨some pf, some us, inject⟩ ⟨suites, []⟩).2.2.exitCodes) := by
  have hpos : suites.length > 0 := List.length_pos.mpr hne
  have hrun := runLoop_ok inject pf us hpf hus suites suites 0 [] hne (by simp)
  unfold start
  dsimp only
  rw [if_pos hpos, hrun]
  refine ⟨by simp, ?_, ?_⟩ <;>
    by_cases hc : 99 ∈ suites.map suiteCode <;>
      simp [hc]

/-- Witness for **C2**: Scenario C — suites with tallies (0,1) and (3,0)
record exit codes [99, 0] and the process exits with 99. -/
theorem start_global_exit_iff_witness :
    (start ⟨some ["p.js"], some ["u.js"], fun _ => true⟩
      ⟨[⟨0, 1⟩, ⟨3, 0⟩], []⟩).2.2.exitCodes = [99, 0] ∧
    (start ⟨some ["p.js"], some ["u.js"], fun _ => true⟩
      ⟨[⟨0, 1⟩, ⟨3, 0⟩], []⟩).2.1 = .ok 99 := by
  have h := start_global_exit_iff (fun _ => true) ["p.js"] ["u.js"]
    (by simp) (by simp) [⟨0, 1⟩, ⟨3, 0⟩] (by simp)
  refine ⟨?_, ?_⟩
  · rw [h.1]; decide
  · exact h.2.1.mpr (by rw [h.1]; decide)

/-- **C3**: with zero suites registered, `start` terminates the process
with the distinct exit status 98 and never constructs a page. -/
theorem start_empty_registry (env : Env) (exitCodes0 : List Nat) :
    start env ⟨[], exitCodes0⟩ =
      ([Ev.exitProcess 98], .ok 98, ⟨[], exitCodes0⟩) ∧
    ∀ n, Ev.createPage n ∉ (start env ⟨[], exitCodes0⟩).1 := by
  refine ⟨rfl, ?_⟩
  intro n
  simp [start]

/-- **C4** counterexample: for the page error message
`"Error: ASSERT_FAIL boom"` (which contains the marker), `onError` prints
the message with its first 7 characters removed — `"ASSERT_FAIL boom"`,
in which the marker still occurs — and not the message with the marker
text stripped, which would be `"Error:  boom"`; so the claim's "marker
text stripped" is false at this input (the always-printed part holds). -/
theorem onError_marker_not_stripped :
    onError false none "Error: ASSERT_FAIL boom" [] = ["ASSERT_FAIL boom"] ∧
    onError true (some ["boom"]) "Error: ASSERT_FAIL boom" [] =
      ["ASSERT_FAIL boom"] ∧
    stripMarkerText "Error: ASSERT_FAIL boom" = "Error:  boom" ∧
    containsSubstr "ASSERT_FAIL boom" magicString = true ∧
    onError false none "Error: ASSERT_FAIL boom" [] ≠
      [stripMarkerText "Error: ASSERT_FAIL boom"] := by decide

/-- **C4** (amended): for every page error whose message contains the
reserved assertion-failure marker, the handler prints exactly one line —
the message with its first 7 characters removed (the code assumes a
leading `"Error: "` prefix; the marker text itself is not stripped) — and
this happens regardless of the debug flag and of the ignore-list. -/
theorem onError_assertFail_always_prints (bDebug : Bool)
    (ignoredErrors : Option (List String)) (msg : String)
    (trace : List TraceFrame) (h : containsSubstr msg magicString = true) :
    onError bDebug ignoredErrors msg trace = [jsSlice msg 7] := by
  unfold onError
  simp [h]

/-- Witness for the amended **C4** at a concrete input, with debug on and
a matching ignore-list entry. -/
theorem onError_assertFail_always_prints_witness :
    onError true (some ["y"]) "Error: ASSERT_FAIL y" [] =
      [jsSlice "Error: ASSERT_FAIL y" 7] :=
  onError_assertFail_always_prints true (some ["y"]) "Error: ASSERT_FAIL y" []
    (by decide)

/-- **C5**: for every page error whose message does not contain the
marker: with debug off nothing is printed; with debug on and some
ignore-list entry contained in the message nothing is printed; otherwise
(debug on, no ignore-list match) the message and its rendered trace
frames are printed. -/
theorem onError_nonMarker_filtering (msg : String) (trace : List TraceFrame)
    (ignoredErrors : Option (List String))
    (h : containsSubstr msg magicString = false) :
    onError false ignoredErrors msg trace = [] ∧
    (∀ l, ignoredErrors = some l →
      l.any (fun ignoredMsg => containsSubstr msg ignoredMsg) = true →
      onError true ignoredErrors msg trace = []) ∧
    ((match ignoredErrors with
      | some l => l.any (fun ignoredMsg => containsSubstr msg ignoredMsg)
      | none => false) = false →
      onError true ignoredErrors msg trace =
        [String.intercalate "\n" (("PHANTOM ERROR: " ++ msg) ::
          (if trace.isEmpty then []
           else trace.map renderTraceLine ++ [""]))]) := by
  refine ⟨?_, ?_, ?_⟩
  · simp [onError, h]
  · intro l hl hmatch
    subst hl
    simp [onError, h, hmatch]
  · intro hnomatch
    cases hign : ignoredErrors with
    | none => simp [onError, h]
    | some l =>
      rw [hign] at hnomatch
      simp only [] at hnomatch
      simp [onError, h, hnomatch]

/-- Witness for **C5** at a concrete input: message `"boom happened"`,
one trace frame, ignore-list `["other"]`. -/
theorem onError_nonMarker_filtering_witness :
    onError false (some ["other"]) "boom happened"
      [⟨some "f.js", "u", 3, some "g"⟩] = [] ∧
    (∀ l, (some ["other"] : Option (List String)) = some l →
      l.any (fun ignoredMsg => containsSubstr "boom happened" ignoredMsg) = true →
      onError true (some ["other"]) "boom happened"
        [⟨some "f.js", "u", 3, some "g"⟩] = []) ∧
    ((match (some ["other"] : Option (List String)) with
      | some l => l.any (fun ignoredMsg => containsSubstr "boom happened" ignoredMsg)
      | none => false) = false →
      onError true (some ["other"]) "boom happened"
        [⟨some "f.js", "u", 3, some "g"⟩] =
        [String.intercalate "\n"
          (("PHANTOM ERROR: " ++ "boom happened") ::
            (if ([⟨some "f.js", "u", 3, some "g"⟩] : List TraceFrame).isEmpty
             then []
             else ([⟨some "f.js", "u", 3, some "g"⟩] : List TraceFrame).map
               renderTraceLine ++ [""]))]) :=
  onError_nonMarker_filtering "boom happened"
    [⟨some "f.js", "u", 3, some "g"⟩] (some ["other"]) (by decide)

/-- **C6**: draining the queue that `gatherTests` filled executes the
declared tests exactly in declaration (FIFO) order, and each declared
test produces exactly one OK/FAIL console line carrying its own name and
its own outcome — so a thrown error in test k (a FAIL line) never
prevents tests k+1..n from executing and printing theirs. -/
theorem testRunner_fifo_failure_isolated (decls : List TestDecl) :
    testRunnerStart (gatherIntoQueue decls) =
      decls.map (fun t =>
        testResultLine (wrapWithTryCatchResult t.throwsError) t.testName) := by
  have hq : ∀ (acc l : List TestDecl),
      List.foldl testRunnerPush acc l = acc ++ l := by
    intro acc l
    induction l generalizing acc with
    | nil => simp
    | cons t ts ih => simp [testRunnerPush, ih]
  rw [show gatherIntoQueue decls = decls by simp [gatherIntoQueue, hq]]
  induction decls with
  | nil => rfl
  | cons t ts ih => simp [testRunnerStart, ih]

/-- **C7** counterexample: `registerSuite` performs no started-state check
— invoked on the module state left behind by a completed `start` run
(whose `_exitCodes` records the finished suite), it appends normally and
raises no ConfigurationError. -/
theorem registerSuite_after_start_no_error :
    ((start ⟨some [], some [], fun _ => true⟩ ⟨[⟨1, 0⟩], []⟩).2.2).exitCodes
      = [0] ∧
    registerSuite ((start ⟨some [], some [], fun _ => true⟩
        ⟨[⟨1, 0⟩], []⟩).2.2) ⟨2, 0⟩ =
      ⟨[⟨1, 0⟩, ⟨2, 0⟩], [0]⟩ := by decide

/-- **C7** (amended): `registerSuite` appends the suite descriptor to the
registry unconditionally; the source keeps no started flag, so a call
made after `start` has run still appends normally and never fails with a
ConfigurationError. -/
theorem registerSuite_appends_unconditionally (env : Env) (st : ModuleState)
    (t : AssertTally) :
    registerSuite st t =
      { st with registeredSuites := st.registeredSuites ++ [t] } ∧
    registerSuite ((start env st).2.2) t =
      { (start env st).2.2 with
        registeredSuites := ((start env st).2.2).registeredSuites ++ [t] } :=
  ⟨rfl, rfl⟩

/-- **C8**: with at least one registered suite and fault-free injections,
the run's event trace is exactly the registration-ordered concatenation of
per-suite blocks — suite n's start, page creation, injections, gathering,
execution, tally read and exit-code recording — followed by the final
process exit. In particular suite n+1's page is never created before
suite n's completion continuation has recorded suite n's exit code, and
the last suite's continuation finalizes the run. -/
theorem start_trace_registration_order (inject : String → Bool)
    (pf us : List String)
    (hpf : ∀ p ∈ pf, inject p = true) (hus : ∀ p ∈ us, inject p = true)
    (suites : List AssertTally) (hne : suites ≠ []) :
    (start ⟨some pf, some us, inject⟩ ⟨suites, []⟩).1 =
      tracesFrom pf us 0 suites ++
        [Ev.exitProcess
          (if (suites.map suiteCode).contains 99 then 99 else 0)] := by
  have hpos : suites.length > 0 := List.length_pos.mpr hne
  have hrun := runLoop_ok inject pf us hpf hus suites suites 0 [] hne (by simp)
  unfold start
  dsimp only
  rw [if_pos hpos, hrun]
  simp

/-- Witness for **C8**: a concrete two-suite run produces the two ordered
suite blocks followed by the final exit. -/
theorem start_trace_registration_order_witness :
    (start ⟨some ["a"], some ["b"], fun _ => true⟩ ⟨[⟨2, 0⟩, ⟨0, 1⟩], []⟩).1 =
      tracesFrom ["a"] ["b"] 0 [⟨2, 0⟩, ⟨0, 1⟩] ++ [Ev.exitProcess 99] := by
  have h := start_trace_registration_order (fun _ => true) ["a"] ["b"]
    (by simp) (by simp) [⟨2, 0⟩, ⟨0, 1⟩] (by simp)
  rw [h]; decide

/-- **C9**: if any polyfill injection reports failure, the run aborts with
the polyfill InjectionError and no navigation-dependent step — user-script
injection, assertion-library injection, test gathering, test execution,
tally read — ever occurs, for that or any later suite; and a user-script
injection failure likewise aborts the run before the assertion-library
injection, test gathering and test execution. -/
theorem injection_failure_aborts_run (inject : String → Bool)
    (suites : List AssertTally) (hne : suites ≠ []) :
    (∀ pf usOpt, (∃ p ∈ pf, inject p = false) →
      (start ⟨some pf, usOpt, inject⟩ ⟨suites, []⟩).2.1 =
        .error (.injectionError "Can't inject polyfill into the page...") ∧
      ∀ ev ∈ (start ⟨some pf, usOpt, inject⟩ ⟨suites, []⟩).1,
        navDependent ev = false) ∧
    (∀ pf us, (∀ p ∈ pf, inject p = true) → (∃ p ∈ us, inject p = false) →
      (start ⟨some pf, some us, inject⟩ ⟨suites, []⟩).2.1 =
        .error (.injectionError "Can't inject userscript into the page...") ∧
      ∀ ev ∈ (start ⟨some pf, some us, inject⟩ ⟨suites, []⟩).1,
        postUserScriptPhase ev = false) := by
  obtain ⟨t, ts, rfl⟩ : ∃ t ts, suites = t :: ts := by
    cases suites with
    | nil => cases hne rfl
    | cons a b => exact ⟨a, b, rfl⟩
  constructor
  · intro pf usOpt hfail
    have ho := openAndTestRun_pf_fail inject pf usOpt hfail t 0 (t :: ts).length
    have hstart : start ⟨some pf, usOpt, inject⟩ ⟨t :: ts, []⟩ =
        (Ev.startSuite 0 :: ([Ev.createPage 0] ++
          (injectAll Ev.injectPolyfill "Can't inject polyfill into the page..."
            inject pf).1),
          .error (.injectionError "Can't inject polyfill into the page..."),
          ⟨t :: ts, []⟩) := by
      unfold start
      dsimp only
      rw [if_pos (by simp), runLoop_cons, ho]
    rw [hstart]
    refine ⟨rfl, ?_⟩
    intro ev hev
    rcases List.mem_cons.mp hev with rfl | hev1
    · rfl
    rcases List.mem_append.mp hev1 with hev2 | hev2
    · rcases List.mem_singleton.mp hev2 with rfl
      rfl
    · obtain ⟨p, rfl⟩ := injectAll_fst_shape Ev.injectPolyfill
        "Can't inject polyfill into the page..." inject pf ev hev2
      rfl
  · intro pf us hpf hfail
    have ho := openAndTestRun_us_fail inject pf us hpf hfail t 0 (t :: ts).length
    have hstart : start ⟨some pf, some us, inject⟩ ⟨t :: ts, []⟩ =
        (Ev.startSuite 0 :: ([Ev.createPage 0] ++ pf.map Ev.injectPolyfill ++
          (injectAll Ev.injectUserScript "Can't inject userscript into the page..."
            inject us).1),
          .error (.injectionError "Can't inject userscript into the page..."),
          ⟨t :: ts, []⟩) := by
      unfold start
      dsimp only
      rw [if_pos (by simp), runLoop_cons, ho]
    rw [hstart]
    refine ⟨rfl, ?_⟩
    intro ev hev
    rcases List.mem_cons.mp hev with rfl | hev1
    · rfl
    rcases List.mem_append.mp hev1 with hev2 | hev2
    · rcases List.mem_append.mp hev2 with hev3 | hev3
      · rcases List.mem_singleton.mp hev3 with rfl
        rfl
      · obtain ⟨p, _, rfl⟩ := List.mem_map.mp hev3
        rfl
    · obtain ⟨p, rfl⟩ := injectAll_fst_shape Ev.injectUserScript
        "Can't inject userscript into the page..." inject us ev hev2
      rfl

/-- Witness for **C9**: concrete runs in which the polyfill
(resp. user-script) `"bad"` fails to inject abort with the matching
InjectionError. -/
theorem injection_failure_aborts_run_witness :
    (start ⟨some ["bad"], some ["u"], fun p => p != "bad"⟩
      ⟨[⟨1, 0⟩], []⟩).2.1 =
      .error (.injectionError "Can't inject polyfill into the page...") ∧
    (start ⟨some ["ok"], some ["bad"], fun p => p != "bad"⟩
      ⟨[⟨1, 0⟩], []⟩).2.1 =
      .error (.injectionError "Can't inject userscript into the page...") := by
  have h := injection_failure_aborts_run (fun p => p != "bad") [⟨1, 0⟩]
    (by simp)
  exact ⟨(h.1 ["bad"] (some ["u"]) ⟨"bad", by simp, by decide⟩).1,
    (h.2 ["ok"] ["bad"] (by decide) ⟨"bad", by simp, by decide⟩).1⟩

/-- **C10**: the effective debug flag equals the suite configuration's
`phantom.debug` value whenever that field is defined — including an
explicit `false`, which overrides a command-line `--debug` — and equals
the command-line `--debug` presence otherwise; the verbose flag follows
the same per-suite-overrides-global rule with `phantom.verbose` and
`--verbose`. -/
theorem effective_flags_override (userConf : UserConf) (aCmdArgs : List String) :
    (∀ b, (effectivePhantomConf userConf).debug = some b →
      effectiveDebug userConf (parseCommandLineCfg aCmdArgs) = b) ∧
    ((effectivePhantomConf userConf).debug = none →
      effectiveDebug userConf (parseCommandLineCfg aCmdArgs) =
        aCmdArgs.contains "--debug") ∧
    (∀ b, (effectivePhantomConf userConf).verbose = some b →
      effectiveVerbose userConf (parseCommandLineCfg aCmdArgs) = b) ∧
    ((effectivePhantomConf userConf).verbose = none →
      effectiveVerbose userConf (parseCommandLineCfg aCmdArgs) =
        aCmdArgs.contains "--verbose") := by
  refine ⟨?_, ?_, ?_, ?_⟩
  · intro b hb; simp [effectiveDebug, hb]
  · intro hb; simp [effectiveDebug, hb, parseCommandLineCfg]
  · intro b hb; simp [effectiveVerbose, hb]
  · intro hb; simp [effectiveVerbose, hb, parseCommandLineCfg]

end PhantomTester
